import Mathlib

/-!
Verification of the IPAM address-pool core (`ipam/pool.go`) of
azure-container-networking.

The Go code is shallowly embedded: Go maps become association lists with
string keys (Go map iteration order is unspecified; the embedding iterates
in list order, one admissible order), pointers become explicit state
passing, machine integers become `Int`/`Nat` (no arithmetic here can
overflow in practice), and fallible functions return `Except`.
IP addresses are modelled for the IPv4 case as natural numbers below 2^32;
the claims under study only exercise IPv4 addressing.
-/

set_option linter.unusedVariables false

/-- Errors of the ipam package. `panicNilPool` is not a Go error value: it
models the runtime panic that `requestPool` hits when it dereferences a nil
pool in its final log statement (`ap.Id` with `ap == nil`). -/
inductive IpamErr where
  | errInvalidAddressSpace
  | errInvalidPoolId
  | errInvalidScope
  | errInvalidAddress
  | errAddressPoolExists
  | errAddressPoolNotFound
  | errAddressPoolNotInUse
  | errNoAvailableAddressPools
  | errAddressExists
  | errAddressNotFound
  | errAddressInUse
  | errAddressNotInUse
  | errNoAvailableAddresses
  | panicNilPool
deriving DecidableEq, Repr

/-- Association-list lookup: Go `m[k]` returning a possibly nil value. -/
def alookup {α : Type} : List (String × α) → String → Option α
  | [], _ => none
  | (k, v) :: rest, q => if k = q then some v else alookup rest q

/-- Association-list store: Go `m[k] = v` (update in place or add). -/
def ainsert {α : Type} (q : String) (v : α) : List (String × α) → List (String × α)
  | [] => [(q, v)]
  | (k, w) :: rest => if k = q then (q, v) :: rest else (k, w) :: ainsert q v rest

/-- Association-list removal: Go `delete(m, k)`. -/
def aerase {α : Type} (q : String) : List (String × α) → List (String × α)
  | [] => []
  | (k, v) :: rest => if k = q then aerase q rest else (k, v) :: aerase q rest

/-- Well-formedness of a map embedding: keys occur at most once, as in a Go map. -/
@[reducible] def keysNodup {α : Type} (l : List (String × α)) : Prop :=
  (l.map Prod.fst).Nodup

/-- Splitting a character list at every occurrence of `c`
(Go `strings.Split` with a one-character separator). -/
def splitChar (c : Char) : List Char → List (List Char)
  | [] => [[]]
  | x :: xs =>
    match splitChar c xs with
    | [] => [[]]
    | h :: t => if x = c then [] :: h :: t else (x :: h) :: t

/-- Go `strings.Split(s, sep)` for a one-character separator. -/
def splitStr (c : Char) (s : String) : List String :=
  (splitChar c s.data).map String.mk

/-- Dotted-quad rendering of an IPv4 address (Go `net.IP.String`). -/
def ipToString (a : Nat) : String :=
  toString (a / 16777216 % 256) ++ "." ++ toString (a / 65536 % 256) ++ "." ++
    toString (a / 256 % 256) ++ "." ++ toString (a % 256)

/-- An IPv4 subnet: Go `net.IPNet` (the base address plus a prefix length). -/
structure IPv4Net where
  ip : Nat
  maskBits : Nat
deriving DecidableEq, Repr

/-- Go `ip.Mask(mask)`: clear the host bits of an address. -/
def maskIP (bits : Nat) (a : Nat) : Nat :=
  (a >>> (32 - bits)) <<< (32 - bits)

/-- Go `ipnet.Contains(ip)` for IPv4. -/
def netContains (n : IPv4Net) (a : Nat) : Bool :=
  maskIP n.maskBits a == n.ip

/-- Go `ipnet.String()`: CIDR rendering of a subnet. -/
def netToString (n : IPv4Net) : String :=
  ipToString n.ip ++ "/" ++ toString n.maskBits

/-- Decimal digit value of a character, if any. -/
def charDigit (c : Char) : Option Nat :=
  if 48 ≤ c.toNat ∧ c.toNat ≤ 57 then some (c.toNat - 48) else none

/-- Decimal value of a digit string (auxiliary accumulator form). -/
def decListToNat : List Char → Nat → Option Nat
  | [], acc => some acc
  | c :: rest, acc =>
    match charDigit c with
    | none => none
    | some d => decListToNat rest (acc * 10 + d)

/-- Go `strconv.Atoi` restricted to plain decimal digit strings. -/
def strToNat (s : String) : Option Nat :=
  if s.data.isEmpty then none else decListToNat s.data 0

/-- One decimal octet of a dotted quad. -/
def parseDecOctet (s : String) : Option Nat :=
  match strToNat s with
  | some n => if n ≤ 255 then some n else none
  | none => none

/-- Go `net.ParseIP` restricted to IPv4 dotted quads. -/
def parseIPv4 (s : String) : Option Nat :=
  match (splitChar '.' s.data).map String.mk with
  | [a, b, c, d] =>
    match parseDecOctet a, parseDecOctet b, parseDecOctet c, parseDecOctet d with
    | some x, some y, some z, some w => some (((x * 256 + y) * 256 + z) * 256 + w)
    | _, _, _, _ => none
  | _ => none

/-- Go `net.ParseCIDR` for IPv4: yields the given address and the masked network. -/
def parseCIDR (s : String) : Option (Nat × IPv4Net) :=
  match (splitChar '/' s.data).map String.mk with
  | [ipStr, bitsStr] =>
    match parseIPv4 ipStr, strToNat bitsStr with
    | some ip, some bits =>
      if bits ≤ 32 then some (ip, { ip := maskIP bits ip, maskBits := bits }) else none
    | _, _ => none
  | _ => none

/-- Go struct `addressPoolId` (ipam/pool.go). -/
structure AddressPoolId where
  AsId : String
  Subnet : String
  ChildSubnet : String
deriving DecidableEq, Repr

/-- Go `NewAddressPoolIdFromString` (ipam/pool.go): parse `"as|subnet|child"`. -/
def NewAddressPoolIdFromString (s : String) : Except IpamErr AddressPoolId :=
  let p := splitStr '|' s
  if p.length > 3 then
    .error .errInvalidPoolId
  else
    .ok { AsId := p.getD 0 ""
          Subnet := if 2 ≤ p.length then p.getD 1 "" else ""
          ChildSubnet := if p.length = 3 then p.getD 2 "" else "" }

/-- Go `addressPoolId.String` (ipam/pool.go). -/
def poolIdString (pid : AddressPoolId) : String :=
  if pid.ChildSubnet = "" then
    pid.AsId ++ "|" ++ pid.Subnet
  else
    pid.AsId ++ "|" ++ pid.Subnet ++ "|" ++ pid.ChildSubnet

/-- Go struct `addressRecord` (ipam/pool.go): one IP address of a pool. -/
structure AddressRecord where
  ID : String
  Addr : Nat
  InUse : Bool
  unhealthy : Bool
  epoch : Int
deriving DecidableEq, Repr

/-- Go struct `addressPool` (ipam/pool.go). The `as` back-pointer is dropped:
operations that read `ap.as.epoch` take the space epoch as a parameter.
`addrsByID` maps a client id to the key of the record in `Addresses`
(in Go it holds a pointer to that record). -/
structure AddressPool where
  Id : String
  IfName : String
  Subnet : IPv4Net
  Gateway : Nat
  Addresses : List (String × AddressRecord)
  addrsByID : List (String × String)
  IsIPv6 : Bool
  Priority : Int
  RefCount : Int
  epoch : Int
deriving DecidableEq, Repr

/-- Go struct `addressSpace` (ipam/pool.go). -/
structure AddressSpace where
  Id : String
  Scope : Nat
  Pools : List (String × AddressPool)
  epoch : Int
deriving DecidableEq, Repr

/-- Option maps (`map[string]string`); `none` models a nil Go map. -/
def Opts : Type := List (String × String)

/-- Reading a key from a possibly nil Go string map (missing key gives `""`). -/
def optGet (options : Option Opts) (k : String) : String :=
  match options with
  | none => ""
  | some l => (alookup l k).getD ""

/-- Option key defined in the libnetwork plugin layer of this repository. -/
def OptAddressType : String := "RequestAddressType"

/-- Option value defined in the libnetwork plugin layer of this repository. -/
def OptAddressTypeGateway : String := "com.docker.network.gateway"

/-- Modelled from the spec: the `address-id` option key. Its defining constant
lives outside the given sources; only its identity matters here. -/
def OptAddressID : String := "address-id"

/-- Modelled from the spec: the `interface-name` option key (see above). -/
def OptInterfaceName : String := "interface-name"

/-- Modelled from the spec: the `network-name` option key (see above). -/
def OptNetworkName : String := "network-name"

/-- Modelled from the spec: the `overlay-network` option key (see above). -/
def OptOverlayNetwork : String := "overlay-network"

/-- Go `addressPool.isInUse` (ipam/pool.go). -/
def poolInUse (ap : AddressPool) : Bool :=
  ap.RefCount > 0

/-- Modelled from the spec: `platform.GenerateAddress(subnet, ::1)` is defined
outside the given sources; the spec fixes the gateway to the first usable
host IP of the subnet. -/
def gatewayOf (n : IPv4Net) : Nat :=
  n.ip + 1

/-- Go `addressSpace.newAddressPool` (ipam/pool.go). On a key collision Go
returns the existing pool together with `errAddressPoolExists`; the error
branch here carries that pool. `IsIPv6` is `false` in this IPv4-only model. -/
def newAddressPool (as_ : AddressSpace) (ifName nwName : String) (priority : Int)
    (subnet : IPv4Net) : Except AddressPool (AddressPool × AddressSpace) :=
  let pool := netToString subnet
  match alookup as_.Pools (pool ++ nwName) with
  | some addrPool => .error addrPool
  | none =>
    let addrPool : AddressPool :=
      { Id := pool ++ nwName, IfName := ifName, Subnet := subnet
        Gateway := gatewayOf subnet, Addresses := [], addrsByID := []
        IsIPv6 := false, Priority := priority, RefCount := 0, epoch := as_.epoch }
    .ok (addrPool, { as_ with Pools := ainsert (pool ++ nwName) addrPool as_.Pools })

/-- Go `addressSpace.getAddressPool` (ipam/pool.go): the space-level pool
lookup used by the manager's info/request/release address operations. -/
def getAddressPool (as_ : AddressSpace) (poolId : String) : Except IpamErr AddressPool :=
  match alookup as_.Pools poolId with
  | none => .error .errInvalidPoolId
  | some ap => .ok ap

/-- Go `addressPool.newAddressRecord` (ipam/pool.go). -/
def newAddressRecord (ap : AddressPool) (addr : Nat) :
    Except IpamErr (AddressRecord × AddressPool) :=
  let id := ipToString addr
  if netContains ap.Subnet addr = false then .error .errInvalidAddress
  else
    match alookup ap.Addresses id with
    | some _ => .error .errAddressExists
    | none =>
      let ar : AddressRecord :=
        { ID := "", Addr := addr, InUse := false, unhealthy := false, epoch := ap.epoch }
      .ok (ar, { ap with Addresses := ainsert id ar ap.Addresses })

/-- The addresses the scan loop of `populateIPAddresses` visits, in order:
from the masked start address, every address the subnet contains. For an
aligned base this is the closed form of `for ip := ip.Mask(mask);
ipnet.Contains(ip); inc(ip)`. -/
def ipRangeList (n : IPv4Net) : List Nat :=
  (List.range (2 ^ (32 - n.maskBits))).map (fun i => n.ip + i)

/-- One iteration of the record-creation loop of `populateIPAddresses`:
create the record, pre-mark the first, second and last addresses in use,
and store the record. -/
def populateStep (lastIndex : Nat) (ap : AddressPool) (idx : Nat) (addr : Nat) :
    Except IpamErr AddressPool :=
  match newAddressRecord ap addr with
  | .error e => .error e
  | .ok (ar, ap1) =>
    let ar := if idx = 0 ∨ idx = 1 ∨ idx = lastIndex then { ar with InUse := true } else ar
    .ok { ap1 with Addresses := ainsert (ipToString addr) ar ap1.Addresses }

/-- The record-creation loop of `populateIPAddresses`. On an error Go keeps
the partial pool state (mutation is in place), so the pool is returned in
both cases alongside the optional error. -/
def populateGo (lastIndex : Nat) : Nat → AddressPool → List Nat →
    AddressPool × Option IpamErr
  | _, ap, [] => (ap, none)
  | idx, ap, a :: rest =>
    match populateStep lastIndex ap idx a with
    | .error e => (ap, some e)
    | .ok ap1 => populateGo lastIndex (idx + 1) ap1 rest

/-- Go `addressPool.populateIPAddresses` (ipam/pool.go). -/
def populateIPAddresses (ap : AddressPool) (startIP : Nat) (n : IPv4Net) :
    AddressPool × Option IpamErr :=
  let base := maskIP n.maskBits startIP
  let l := if base = n.ip then ipRangeList n else []
  populateGo (l.length - 1) 0 ap l

/-- Go `addressSpace.getPool` (ipam/pool.go). Returns the pool together with
its key in the space's pool map (in Go the key is implicit in the pointer).
Two of its quirks are preserved: a nil result with a nil error when no
network name is supplied, and the create error of `newAddressPool` being
written to a shadowed variable and therefore dropped. -/
def getPool (as_ : AddressSpace) (poolId : String) (options : Option Opts) :
    Except IpamErr (Option (String × AddressPool) × AddressSpace) :=
  match alookup as_.Pools poolId with
  | some ap => .ok (some (poolId, ap), as_)
  | none =>
    match options with
    | none => .ok (none, as_)
    | some opts =>
      let nwName := optGet (some opts) OptNetworkName
      if nwName = "" then .ok (none, as_)
      else
        match alookup as_.Pools (poolId ++ nwName) with
        | some ap => .ok (some (poolId ++ nwName, ap), as_)
        | none =>
          if optGet (some opts) OptOverlayNetwork ≠ "" then
            match parseCIDR poolId with
            | none => .error .errInvalidPoolId
            | some (ip, ipnet) =>
              match newAddressPool as_ "" nwName 0 ipnet with
              | .error existing => .ok (some (netToString ipnet ++ nwName, existing), as_)
              | .ok (ap, as2) =>
                let ap2 := (populateIPAddresses ap ip ipnet).1
                .ok (some (ap2.Id, ap2), { as2 with Pools := ainsert ap2.Id ap2 as2.Pools })
          else .error .errAddressPoolNotFound

/-- The pool-scan loop of `requestPool` for an empty pool id: skip in-use
pools, wrong address family, wrong interface; otherwise replace the current
best when the candidate has strictly higher priority, and then (a second,
independent check) when it has strictly more addresses than the current best. -/
def scanStep (v6 : Bool) (ifName : String) (acc : Option (String × AddressPool))
    (kv : String × AddressPool) : Option (String × AddressPool) :=
  if poolInUse kv.2 then acc
  else if kv.2.IsIPv6 ≠ v6 then acc
  else if ifName ≠ "" ∧ ifName ≠ kv.2.IfName then acc
  else
    match acc with
    | none => some kv
    | some ap =>
      let a1 := if kv.2.Priority > ap.2.Priority then kv else ap
      if kv.2.Addresses.length > a1.2.Addresses.length then some kv else some a1

def scanPools (v6 : Bool) (ifName : String) (pools : List (String × AddressPool)) :
    Option (String × AddressPool) :=
  pools.foldl (scanStep v6 ifName) none

/-- Go `addressSpace.requestPool` (ipam/pool.go). Paths on which Go reaches
the final log statement with a nil pool (an unknown id without the overlay
synthesis, or an empty id with no candidate) end in `panicNilPool`: Go
dereferences the nil pool there. -/
def requestPool (as_ : AddressSpace) (poolId subPoolId : String) (options : Option Opts)
    (v6 : Bool) : Except IpamErr ((String × AddressPool) × AddressSpace) :=
  if poolId ≠ "" then
    match getPool as_ poolId options with
    | .error e => .error e
    | .ok (none, _) => .error .panicNilPool
    | .ok (some (k, ap), as2) =>
      let ap1 := { ap with RefCount := ap.RefCount + 1 }
      .ok ((k, ap1), { as2 with Pools := ainsert k ap1 as2.Pools })
  else
    match scanPools v6 (optGet options OptInterfaceName) as_.Pools with
    | none => .error .panicNilPool
    | some (k, ap) =>
      let ap1 := { ap with RefCount := ap.RefCount + 1 }
      .ok ((k, ap1), { as_ with Pools := ainsert k ap1 as_.Pools })

/-- Go `addressSpace.releasePool` (ipam/pool.go). -/
def releasePool (as_ : AddressSpace) (poolId : String) : Except IpamErr AddressSpace :=
  match alookup as_.Pools poolId with
  | none => .error .errAddressPoolNotFound
  | some ap =>
    if poolInUse ap = false then .error .errAddressPoolNotInUse
    else
      let ap1 := { ap with RefCount := ap.RefCount - 1 }
      if ap1.epoch < as_.epoch ∧ poolInUse ap1 = false then
        .ok { as_ with Pools := aerase poolId as_.Pools }
      else
        .ok { as_ with Pools := ainsert poolId ap1 as_.Pools }

/-- Go CIDR rendering of a single address with the pool's mask:
`(&net.IPNet{IP: addr, Mask: ap.Subnet.Mask}).String()`. -/
def cidrString (addr : Nat) (n : IPv4Net) : String :=
  ipToString addr ++ "/" ++ toString n.maskBits

/-- The scan of `requestAddress` for "any available address": the first
record not in use, in iteration order. -/
def findFree : List (String × AddressRecord) → Option (String × AddressRecord)
  | [] => none
  | (k, r) :: rest => if r.InUse = false then some (k, r) else findFree rest

/-- The common tail of `requestAddress` once a real record (at key `key` of
`Addresses`) is selected: register the id, mark the record in use, return
the CIDR string. -/
def finishRequest (ap : AddressPool) (key : String) (ar : AddressRecord) (id : String) :
    Except IpamErr (String × AddressPool) :=
  let byID := if id ≠ "" then ainsert id key ap.addrsByID else ap.addrsByID
  let ar1 := { ar with ID := id, InUse := true }
  .ok (cidrString ar.Addr ap.Subnet,
       { ap with Addresses := ainsert key ar1 ap.Addresses, addrsByID := byID })

/-- Go `addressPool.requestAddress` (ipam/pool.go). The gateway branch
synthesizes a record holding the pool's gateway, forces the id empty and
registers nothing, so the pool is returned unchanged. -/
def requestAddress (ap : AddressPool) (address : String) (options : Option Opts) :
    Except IpamErr (String × AddressPool) :=
  let id := optGet options OptAddressID
  if address ≠ "" then
    match alookup ap.Addresses address with
    | none => .error .errAddressNotFound
    | some ar =>
      if ar.InUse ∧ (id = "" ∨ id ≠ ar.ID) then .error .errAddressInUse
      else finishRequest ap address ar id
  else if optGet options OptAddressType = OptAddressTypeGateway then
    .ok (cidrString ap.Gateway ap.Subnet, ap)
  else
    let byId :=
      if id ≠ "" then
        (alookup ap.addrsByID id).bind fun k => (alookup ap.Addresses k).map fun r => (k, r)
      else none
    match byId with
    | some (k, ar) => finishRequest ap k ar id
    | none =>
      match findFree ap.Addresses with
      | none => .error .errNoAvailableAddresses
      | some (k, ar) => finishRequest ap k ar id

/-- The common tail of `releaseAddress` once a record is found: check the id
and the in-use flag, unregister the id, clear the record, and delete it when
its epoch is older than the space's. -/
def finishRelease (asEpoch : Int) (ap : AddressPool) (address : String)
    (ar : AddressRecord) (id : String) : Except IpamErr AddressPool :=
  if id ≠ "" ∧ id ≠ ar.ID then .error .errAddressNotFound
  else if ar.InUse = false then .error .errAddressNotInUse
  else
    let byID := if ar.ID ≠ "" then aerase ar.ID ap.addrsByID else ap.addrsByID
    let ar1 := { ar with ID := "", InUse := false }
    let addrs := ainsert address ar1 ap.Addresses
    let addrs := if ar.epoch < asEpoch then aerase address addrs else addrs
    .ok { ap with Addresses := addrs, addrsByID := byID }

/-- Go `addressPool.releaseAddress` (ipam/pool.go). `asEpoch` is
`ap.as.epoch` of the containing space. -/
def releaseAddress (asEpoch : Int) (ap : AddressPool) (address : String)
    (options : Option Opts) : Except IpamErr AddressPool :=
  let id := optGet options OptAddressID
  if address ≠ "" then
    match alookup ap.Addresses address with
    | none =>
      if address = ipToString ap.Gateway then .ok ap else .error .errAddressNotFound
    | some ar => finishRelease asEpoch ap address ar id
  else if id ≠ "" then
    match (alookup ap.addrsByID id).bind
        (fun k => (alookup ap.Addresses k).map fun r => (k, r)) with
    | none => .error .errAddressNotFound
    | some (k, ar) => finishRelease asEpoch ap (ipToString ar.Addr) ar id
  else .error .errAddressNotFound

/-- One snapshot record handled by the record-merge loop of
`addressSpace.merge`: adopt a new record at the new epoch, or bump and heal
a record present on both sides. -/
def mergeRecStep (newEpoch : Int) (acc : List (String × AddressRecord))
    (kv : String × AddressRecord) : List (String × AddressRecord) :=
  match alookup acc kv.1 with
  | none => ainsert kv.1 { kv.2 with epoch := newEpoch } acc
  | some ar => ainsert kv.1 { ar with epoch := newEpoch, unhealthy := false } acc

/-- The record-merge loop of `addressSpace.merge` for a pool present on both
sides. -/
def mergeRecords (newEpoch : Int) (apAddrs pvAddrs : List (String × AddressRecord)) :
    List (String × AddressRecord) :=
  pvAddrs.foldl (mergeRecStep newEpoch) apAddrs

/-- One snapshot pool handled by the adoption phase of `addressSpace.merge`;
the state is the live pool map plus the `usedNewEpoch` flag. -/
def mergeStep (newEpoch : Int) (st : List (String × AddressPool) × Bool)
    (kv : String × AddressPool) : List (String × AddressPool) × Bool :=
  match alookup st.1 kv.1 with
  | none => (ainsert kv.1 { kv.2 with epoch := newEpoch } st.1, true)
  | some ap =>
    (ainsert kv.1 { ap with Addresses := mergeRecords newEpoch ap.Addresses kv.2.Addresses }
       st.1,
     st.2 || !kv.2.Addresses.isEmpty)

/-- One record handled by the sweep loop of `addressSpace.merge`; the state
is the surviving records plus the pool's epoch. -/
def sweepRecStep (asEpoch : Int) (st : List (String × AddressRecord) × Int)
    (kv : String × AddressRecord) : List (String × AddressRecord) × Int :=
  if kv.2.epoch = asEpoch then (st.1 ++ [kv], asEpoch)
  else if kv.2.InUse then (st.1 ++ [(kv.1, { kv.2 with unhealthy := true })], asEpoch)
  else (st.1, st.2)

/-- The sweep of one live pool by `addressSpace.merge`: drop stale free
records, mark stale in-use records unhealthy, and delete the pool when it
ends up stale and unreferenced (`none`). -/
def sweepPool (asEpoch : Int) (ap : AddressPool) : Option AddressPool :=
  if ap.epoch < asEpoch then
    let st := ap.Addresses.foldl (sweepRecStep asEpoch) ([], ap.epoch)
    let ap1 := { ap with Addresses := st.1, epoch := st.2 }
    if ap1.epoch < asEpoch ∧ poolInUse ap1 = false then none else some ap1
  else some ap

/-- Go `addressSpace.merge` (ipam/pool.go): adoption phase over the snapshot
pools, conditional epoch bump, then the sweep over the live pools. The
emptying of the snapshot is dropped: only the live space is returned. -/
def merge (as_ newas : AddressSpace) : AddressSpace :=
  let newEpoch := as_.epoch + 1
  let st := newas.Pools.foldl (mergeStep newEpoch) (as_.Pools, false)
  let epoch1 := if st.2 then newEpoch else as_.epoch
  let pools := st.1.filterMap fun kv => (sweepPool epoch1 kv.2).map fun p => (kv.1, p)
  { as_ with Pools := pools, epoch := epoch1 }

/-- Whether a merge adopts or reconfirms anything: some snapshot pool is new
to the live space, or some snapshot pool shared with the live space carries
at least one record. -/
def mergeTouches (as_ newas : AddressSpace) : Bool :=
  newas.Pools.any fun kv => (alookup as_.Pools kv.1).isNone || !kv.2.Addresses.isEmpty

/-! ### Association-list lemmas -/

theorem alookup_ainsert_self {α : Type} (q : String) (v : α) (l : List (String × α)) :
    alookup (ainsert q v l) q = some v := by
  induction l with
  | nil => simp [ainsert, alookup]
  | cons kv rest ih =>
    obtain ⟨k, w⟩ := kv
    by_cases h : k = q
    · simp [ainsert, h, alookup]
    · simp [ainsert, h, alookup, ih]

theorem alookup_ainsert_ne {α : Type} {q k : String} (h : k ≠ q) (v : α)
    (l : List (String × α)) : alookup (ainsert q v l) k = alookup l k := by
  induction l with
  | nil => simp [ainsert, alookup, Ne.symm h]
  | cons kv rest ih =>
    obtain ⟨k', w⟩ := kv
    by_cases h' : k' = q
    · subst h'
      simp [ainsert, alookup, Ne.symm h]
    · simp [ainsert, h', alookup, ih]

theorem alookup_aerase_self {α : Type} (q : String) (l : List (String × α)) :
    alookup (aerase q l) q = none := by
  induction l with
  | nil => simp [aerase, alookup]
  | cons kv rest ih =>
    obtain ⟨k, w⟩ := kv
    by_cases h : k = q
    · simp [aerase, h, ih]
    · simp [aerase, h, alookup, ih]

theorem alookup_mem {α : Type} {l : List (String × α)} {q : String} {v : α}
    (h : alookup l q = some v) : (q, v) ∈ l := by
  induction l with
  | nil => simp [alookup] at h
  | cons kv rest ih =>
    obtain ⟨k, w⟩ := kv
    by_cases hk : k = q
    · subst hk
      simp [alookup] at h
      simp [h]
    · simp [alookup, hk] at h
      exact List.mem_cons_of_mem _ (ih h)

theorem alookup_none_forall {α : Type} {l : List (String × α)} {q : String}
    (h : alookup l q = none) : ∀ kv ∈ l, kv.1 ≠ q := by
  induction l with
  | nil => simp
  | cons kv rest ih =>
    obtain ⟨k, w⟩ := kv
    by_cases hk : k = q
    · simp [alookup, hk] at h
    · simp [alookup, hk] at h
      intro kv' hm
      rcases List.mem_cons.mp hm with h1 | h1
      · simpa [h1] using hk
      · exact ih h kv' h1

theorem mem_ainsert {α : Type} {x : String × α} {q : String} {v : α}
    {l : List (String × α)} (h : x ∈ ainsert q v l) : x = (q, v) ∨ x ∈ l := by
  induction l with
  | nil => simpa [ainsert] using h
  | cons kv rest ih =>
    obtain ⟨k, w⟩ := kv
    by_cases hk : k = q
    · simp [ainsert, hk] at h
      rcases h with h | h
      · left; simp [h]
      · right; exact List.mem_cons_of_mem _ h
    · simp [ainsert, hk] at h
      rcases h with h | h
      · right; simp [h]
      · rcases ih h with h1 | h1
        · left; exact h1
        · right; exact List.mem_cons_of_mem _ h1

theorem mem_ainsert_nodup {α : Type} {x : String × α} {q : String} {v : α}
    {l : List (String × α)} (hn : keysNodup l)
    (h : x ∈ ainsert q v l) : x = (q, v) ∨ (x ∈ l ∧ x.1 ≠ q) := by
  induction l with
  | nil =>
    simp [ainsert] at h
    left; exact h
  | cons kv rest ih =>
    obtain ⟨k, w'⟩ := kv
    simp [keysNodup] at hn
    by_cases hk : k = q
    · subst hk
      simp [ainsert] at h
      rcases h with h | h
      · left; simp [h]
      · right
        refine ⟨List.mem_cons_of_mem _ h, fun he => ?_⟩
        have : (k, x.2) ∈ rest := by
          have hx : x = (x.1, x.2) := rfl
          rw [hx, he] at h
          exact h
        exact hn.1 x.2 this
    · simp [ainsert, hk] at h
      rcases h with h | h
      · right
        exact ⟨by simp [h], by simpa [h] using hk⟩
      · rcases ih hn.2 h with h1 | h1
        · left; exact h1
        · right; exact ⟨List.mem_cons_of_mem _ h1.1, h1.2⟩

theorem alookup_eq_none_iff {α : Type} {l : List (String × α)} {q : String} :
    alookup l q = none ↔ q ∉ l.map Prod.fst := by
  induction l with
  | nil => simp [alookup]
  | cons kv rest ih =>
    obtain ⟨k, w⟩ := kv
    by_cases hk : k = q
    · simp [alookup, hk]
    · simp [alookup, hk, ih, Ne.symm hk]

theorem keys_ainsert {α : Type} (q : String) (v : α) (l : List (String × α)) :
    (ainsert q v l).map Prod.fst =
      if (alookup l q).isSome then l.map Prod.fst else l.map Prod.fst ++ [q] := by
  induction l with
  | nil => simp [ainsert, alookup]
  | cons kv rest ih =>
    obtain ⟨k, w⟩ := kv
    by_cases hk : k = q
    · simp [ainsert, alookup, hk]
    · simp [ainsert, alookup, hk, ih]
      by_cases hs : (alookup rest q).isSome <;> simp [hs]

theorem keysNodup_ainsert {α : Type} {q : String} {v : α} {l : List (String × α)}
    (h : keysNodup l) : keysNodup (ainsert q v l) := by
  unfold keysNodup at h ⊢
  rw [keys_ainsert]
  by_cases hs : (alookup l q).isSome
  · simpa [hs] using h
  · have hq : q ∉ l.map Prod.fst := by
      rw [← alookup_eq_none_iff]
      cases hx : alookup l q with
      | none => rfl
      | some w => simp [hx] at hs
    simp [hs, List.nodup_append, h, hq]

/-! ### Merge lemmas -/

theorem mergeStep_eq_none (ne : Int) (acc : List (String × AddressPool)) (u : Bool)
    (kv : String × AddressPool) (h : alookup acc kv.1 = none) :
    mergeStep ne (acc, u) kv = (ainsert kv.1 { kv.2 with epoch := ne } acc, true) := by
  unfold mergeStep
  rw [h]

theorem mergeStep_eq_some (ne : Int) (acc : List (String × AddressPool)) (u : Bool)
    (kv : String × AddressPool) (ap : AddressPool) (h : alookup acc kv.1 = some ap) :
    mergeStep ne (acc, u) kv =
      (ainsert kv.1 { ap with Addresses := mergeRecords ne ap.Addresses kv.2.Addresses } acc,
       u || !kv.2.Addresses.isEmpty) := by
  unfold mergeStep
  rw [h]

theorem foldl_mergeStep_used_true (ne : Int) (ps : List (String × AddressPool)) :
    ∀ acc : List (String × AddressPool), (ps.foldl (mergeStep ne) (acc, true)).2 = true := by
  induction ps with
  | nil => intro acc; rfl
  | cons kv rest ih =>
    intro acc
    simp only [List.foldl_cons]
    cases h : alookup acc kv.1 with
    | none => rw [mergeStep_eq_none ne acc true kv h]; exact ih _
    | some ap => rw [mergeStep_eq_some ne acc true kv ap h]; simpa using ih _

theorem foldl_mergeStep_used (ne : Int) (asP : List (String × AddressPool)) :
    ∀ (ps : List (String × AddressPool)) (acc : List (String × AddressPool)) (u : Bool),
      (∀ q, alookup acc q = none → alookup asP q = none) →
      (∀ q, alookup asP q = none → (alookup acc q).isSome → u = true) →
      (ps.foldl (mergeStep ne) (acc, u)).2 =
        (u || ps.any fun kv => (alookup asP kv.1).isNone || !kv.2.Addresses.isEmpty) := by
  intro ps
  induction ps with
  | nil => intro acc u h1 h2; simp
  | cons kv rest ih =>
    intro acc u h1 h2
    simp only [List.foldl_cons, List.any_cons]
    cases hl : alookup acc kv.1 with
    | none =>
      have hasP : alookup asP kv.1 = none := h1 _ hl
      rw [mergeStep_eq_none ne acc u kv hl, foldl_mergeStep_used_true]
      simp [hasP]
    | some ap =>
      rw [mergeStep_eq_some ne acc u kv ap hl]
      cases hasP : alookup asP kv.1 with
      | none =>
        have hu : u = true := h2 _ hasP (by simp [hl])
        simp [hu, foldl_mergeStep_used_true, hasP]
      | some bp =>
        rw [ih (ainsert kv.1 _ acc) _ ?_ ?_]
        · simp [hasP, Bool.or_assoc]
        · intro q hq
          by_cases hqk : q = kv.1
          · subst hqk
            rw [alookup_ainsert_self] at hq
            exact absurd hq (by simp)
          · rw [alookup_ainsert_ne hqk] at hq
            exact h1 _ hq
        · intro q hqn hqs
          by_cases hqk : q = kv.1
          · subst hqk
            rw [hasP] at hqn
            exact absurd hqn (by simp)
          · rw [alookup_ainsert_ne hqk] at hqs
            have := h2 _ hqn hqs
            simp [this]

theorem foldl_mergeStep_lookup_other (ne : Int) (pk : String) :
    ∀ (ps : List (String × AddressPool)) (acc : List (String × AddressPool)) (u : Bool),
      (∀ kv ∈ ps, kv.1 ≠ pk) →
      alookup (ps.foldl (mergeStep ne) (acc, u)).1 pk = alookup acc pk := by
  intro ps
  induction ps with
  | nil => intro acc u h; rfl
  | cons kv rest ih =>
    intro acc u h
    have hk : kv.1 ≠ pk := h kv (List.mem_cons_self _ _)
    have hrest : ∀ kv' ∈ rest, kv'.1 ≠ pk := fun kv' hm => h kv' (List.mem_cons_of_mem _ hm)
    simp only [List.foldl_cons]
    cases hl : alookup acc kv.1 with
    | none =>
      rw [mergeStep_eq_none ne acc u kv hl, ih _ _ hrest, alookup_ainsert_ne (Ne.symm hk)]
    | some ap =>
      rw [mergeStep_eq_some ne acc u kv ap hl, ih _ _ hrest, alookup_ainsert_ne (Ne.symm hk)]

theorem foldl_mergeStep_lookup_adopt (ne : Int) {pk : String} {P : AddressPool} :
    ∀ (ps : List (String × AddressPool)) (acc : List (String × AddressPool)) (u : Bool),
      keysNodup ps → alookup ps pk = some P → alookup acc pk = none →
      alookup (ps.foldl (mergeStep ne) (acc, u)).1 pk = some { P with epoch := ne } := by
  intro ps
  induction ps with
  | nil => intro acc u hn hp hacc; simp [alookup] at hp
  | cons kv rest ih =>
    intro acc u hn hp hacc
    obtain ⟨qk, qv⟩ := kv
    simp [keysNodup] at hn
    simp only [List.foldl_cons]
    by_cases hqk : qk = pk
    · subst hqk
      simp [alookup] at hp
      subst hp
      rw [mergeStep_eq_none ne acc u (qk, qv) hacc]
      have hrest : ∀ kv' ∈ rest, kv'.1 ≠ qk := by
        intro kv' hm he
        exact hn.1 kv'.2 (by rw [← he]; simpa using hm)
      rw [foldl_mergeStep_lookup_other ne qk rest _ _ hrest, alookup_ainsert_self]
    · simp [alookup, hqk] at hp
      cases hl : alookup acc qk with
      | none =>
        rw [mergeStep_eq_none ne acc u (qk, qv) hl]
        exact ih _ _ hn.2 hp (by rw [alookup_ainsert_ne (Ne.symm hqk)]; exact hacc)
      | some ap =>
        rw [mergeStep_eq_some ne acc u (qk, qv) ap hl]
        exact ih _ _ hn.2 hp (by rw [alookup_ainsert_ne (Ne.symm hqk)]; exact hacc)

theorem foldl_mergeStep_lookup_existing (ne : Int) {pk : String} {pv P : AddressPool} :
    ∀ (ps : List (String × AddressPool)) (acc : List (String × AddressPool)) (u : Bool),
      keysNodup ps → alookup ps pk = some pv → alookup acc pk = some P →
      alookup (ps.foldl (mergeStep ne) (acc, u)).1 pk =
        some { P with Addresses := mergeRecords ne P.Addresses pv.Addresses } := by
  intro ps
  induction ps with
  | nil => intro acc u hn hp hacc; simp [alookup] at hp
  | cons kv rest ih =>
    intro acc u hn hp hacc
    obtain ⟨qk, qv⟩ := kv
    simp [keysNodup] at hn
    simp only [List.foldl_cons]
    by_cases hqk : qk = pk
    · subst hqk
      simp [alookup] at hp
      subst hp
      rw [mergeStep_eq_some ne acc u (qk, qv) P hacc]
      have hrest : ∀ kv' ∈ rest, kv'.1 ≠ qk := by
        intro kv' hm he
        exact hn.1 kv'.2 (by rw [← he]; simpa using hm)
      rw [foldl_mergeStep_lookup_other ne qk rest _ _ hrest, alookup_ainsert_self]
    · simp [alookup, hqk] at hp
      cases hl : alookup acc qk with
      | none =>
        rw [mergeStep_eq_none ne acc u (qk, qv) hl]
        exact ih _ _ hn.2 hp (by rw [alookup_ainsert_ne (Ne.symm hqk)]; exact hacc)
      | some ap =>
        rw [mergeStep_eq_some ne acc u (qk, qv) ap hl]
        exact ih _ _ hn.2 hp (by rw [alookup_ainsert_ne (Ne.symm hqk)]; exact hacc)

theorem mergeRecords_lookup_absent (ne : Int) {ak : String} :
    ∀ (pvA base : List (String × AddressRecord)),
      (∀ kv ∈ pvA, kv.1 ≠ ak) →
      alookup (mergeRecords ne base pvA) ak = alookup base ak := by
  intro pvA
  induction pvA with
  | nil => intro base h; rfl
  | cons kv rest ih =>
    intro base h
    have hk : kv.1 ≠ ak := h kv (List.mem_cons_self _ _)
    have hrest : ∀ kv' ∈ rest, kv'.1 ≠ ak := fun kv' hm => h kv' (List.mem_cons_of_mem _ hm)
    show alookup (mergeRecords ne (mergeRecStep ne base kv) rest) ak = alookup base ak
    rw [ih _ hrest]
    unfold mergeRecStep
    cases alookup base kv.1 with
    | none => simp only []; rw [alookup_ainsert_ne (Ne.symm hk)]
    | some ar => simp only []; rw [alookup_ainsert_ne (Ne.symm hk)]

/-! ### Sweep lemmas -/

/-- The per-record action of the sweep, as a partial map: records reconfirmed
at the space epoch survive unchanged, stale in-use records survive marked
unhealthy, stale free records are dropped. -/
def sweepG (e : Int) (kv : String × AddressRecord) : Option (String × AddressRecord) :=
  if kv.2.epoch = e then some kv
  else if kv.2.InUse then some (kv.1, { kv.2 with unhealthy := true })
  else none

theorem sweepRec_fst (e : Int) :
    ∀ (l : List (String × AddressRecord)) (acc : List (String × AddressRecord)) (pe : Int),
      (l.foldl (sweepRecStep e) (acc, pe)).1 = acc ++ l.filterMap (sweepG e) := by
  intro l
  induction l with
  | nil => intro acc pe; simp
  | cons kv rest ih =>
    intro acc pe
    simp only [List.foldl_cons, List.filterMap_cons]
    by_cases h1 : kv.2.epoch = e
    · rw [show sweepRecStep e (acc, pe) kv = (acc ++ [kv], e) by unfold sweepRecStep; simp [h1]]
      simp [sweepG, h1, ih]
    · by_cases h2 : kv.2.InUse
      · rw [show sweepRecStep e (acc, pe) kv = (acc ++ [(kv.1, { kv.2 with unhealthy := true })], e) by
          unfold sweepRecStep; simp [h1, h2]]
        simp [sweepG, h1, h2, ih]
      · rw [show sweepRecStep e (acc, pe) kv = (acc, pe) by unfold sweepRecStep; simp [h1, h2]]
        simp [sweepG, h1, h2, ih]

theorem sweepRec_snd_true (e : Int) :
    ∀ (l : List (String × AddressRecord)) (acc : List (String × AddressRecord)),
      (l.foldl (sweepRecStep e) (acc, e)).2 = e := by
  intro l
  induction l with
  | nil => intro acc; rfl
  | cons kv rest ih =>
    intro acc
    simp only [List.foldl_cons]
    by_cases h1 : kv.2.epoch = e
    · rw [show sweepRecStep e (acc, e) kv = (acc ++ [kv], e) by unfold sweepRecStep; simp [h1]]
      exact ih _
    · by_cases h2 : kv.2.InUse
      · rw [show sweepRecStep e (acc, e) kv = (acc ++ [(kv.1, { kv.2 with unhealthy := true })], e) by
          unfold sweepRecStep; simp [h1, h2]]
        exact ih _
      · rw [show sweepRecStep e (acc, e) kv = (acc, e) by unfold sweepRecStep; simp [h1, h2]]
        exact ih _

theorem sweepRec_snd_of_mem (e : Int) (kv : String × AddressRecord) :
    ∀ (l : List (String × AddressRecord)) (acc : List (String × AddressRecord)) (pe : Int),
      kv ∈ l → (kv.2.epoch = e ∨ kv.2.InUse = true) →
      (l.foldl (sweepRecStep e) (acc, pe)).2 = e := by
  intro l
  induction l with
  | nil => intro acc pe hm; simp at hm
  | cons kv' rest ih =>
    intro acc pe hm htr
    simp only [List.foldl_cons]
    rcases List.mem_cons.mp hm with he | hm2
    · subst he
      rcases htr with h1 | h2
      · rw [show sweepRecStep e (acc, pe) kv = (acc ++ [kv], e) by unfold sweepRecStep; simp [h1]]
        exact sweepRec_snd_true e rest _
      · by_cases h1 : kv.2.epoch = e
        · rw [show sweepRecStep e (acc, pe) kv = (acc ++ [kv], e) by unfold sweepRecStep; simp [h1]]
          exact sweepRec_snd_true e rest _
        · rw [show sweepRecStep e (acc, pe) kv = (acc ++ [(kv.1, { kv.2 with unhealthy := true })], e) by
            unfold sweepRecStep; simp [h1, h2]]
          exact sweepRec_snd_true e rest _
    · exact ih _ _ hm2 htr

theorem alookup_filterMap {β γ : Type} {g : (String × β) → Option (String × γ)}
    (hg : ∀ kv w, g kv = some w → w.1 = kv.1) :
    ∀ {l : List (String × β)} {q : String} {v : β} {w2 : γ},
      alookup l q = some v → g (q, v) = some (q, w2) →
      alookup (l.filterMap g) q = some w2 := by
  intro l
  induction l with
  | nil => intro q v w2 hl; simp [alookup] at hl
  | cons kv rest ih =>
    intro q v w2 hl hgv
    obtain ⟨k, x⟩ := kv
    by_cases hk : k = q
    · subst hk
      simp [alookup] at hl
      subst hl
      simp only [List.filterMap_cons, hgv]
      simp [alookup]
    · simp [alookup, hk] at hl
      simp only [List.filterMap_cons]
      cases hgk : g (k, x) with
      | none => exact ih hl hgv
      | some y =>
        obtain ⟨yk, yv⟩ := y
        have : yk = k := hg _ _ hgk
        subst this
        simp [alookup, hk]
        exact ih hl hgv

/-! ### Splitting lemmas -/

theorem splitChar_ne_nil (c : Char) (l : List Char) : splitChar c l ≠ [] := by
  cases l with
  | nil => simp [splitChar]
  | cons x xs =>
    unfold splitChar
    cases splitChar c xs with
    | nil => simp
    | cons h t =>
      by_cases hx : x = c <;> simp [hx]

theorem length_splitChar (c : Char) :
    ∀ l : List Char, (splitChar c l).length = l.count c + 1 := by
  intro l
  induction l with
  | nil => simp [splitChar]
  | cons x xs ih =>
    unfold splitChar
    cases hsp : splitChar c xs with
    | nil => exact absurd hsp (splitChar_ne_nil c xs)
    | cons h t =>
      rw [hsp] at ih
      by_cases hx : x = c
      · simp [hx, List.count_cons] at ih ⊢
        omega
      · simp [hx, List.count_cons] at ih ⊢
        omega

theorem splitChar_no_sep (c : Char) :
    ∀ l : List Char, c ∉ l → splitChar c l = [l] := by
  intro l
  induction l with
  | nil => intro h; rfl
  | cons x xs ih =>
    intro h
    have hx : x ≠ c := fun he => h (by simp [he])
    have hxs : c ∉ xs := fun hm => h (List.mem_cons_of_mem _ hm)
    unfold splitChar
    rw [ih hxs]
    simp [hx]

theorem splitChar_cons (c x : Char) (xs : List Char) (h : List Char)
    (t : List (List Char)) (hsp : splitChar c xs = h :: t) :
    splitChar c (x :: xs) = if x = c then [] :: h :: t else (x :: h) :: t := by
  unfold splitChar
  rw [hsp]

theorem splitChar_append (c : Char) :
    ∀ a b : List Char, c ∉ a → splitChar c (a ++ c :: b) = a :: splitChar c b := by
  intro a
  induction a with
  | nil =>
    intro b h
    show splitChar c (c :: b) = [] :: splitChar c b
    cases hsp : splitChar c b with
    | nil => exact absurd hsp (splitChar_ne_nil c b)
    | cons hh tt => rw [splitChar_cons c c b hh tt hsp]; simp
  | cons x xs ih =>
    intro b h
    have hx : x ≠ c := fun he => h (by simp [he])
    have hxs : c ∉ xs := fun hm => h (List.mem_cons_of_mem _ hm)
    show splitChar c (x :: (xs ++ c :: b)) = (x :: xs) :: splitChar c b
    rw [splitChar_cons c x _ xs (splitChar c b) (ih b hxs)]
    simp [hx]

theorem data_append (a b : String) : (a ++ b).data = a.data ++ b.data := rfl

theorem stringMk_data (s : String) : String.mk s.data = s := rfl

/-- Equality of `Except` values is decidable componentwise; used to evaluate
concrete runs of the embedded operations. -/
instance {e a : Type} [DecidableEq e] [DecidableEq a] : DecidableEq (Except e a) := fun x y =>
  match x, y with
  | .error e1, .error e2 =>
    if h : e1 = e2 then .isTrue (by rw [h]) else
      .isFalse (by intro hh; injection hh; exact h (by assumption))
  | .error e1, .ok v2 => .isFalse fun hh => Except.noConfusion hh
  | .ok v1, .error e2 => .isFalse fun hh => Except.noConfusion hh
  | .ok v1, .ok v2 =>
    if h : v1 = v2 then .isTrue (by rw [h]) else
      .isFalse (by intro hh; injection hh; exact h (by assumption))

/-! ### The claims -/

/-- C9: formatting a pool id and parsing it back is the identity whenever no
component contains the pipe separator, and parsing a string with three or
more pipe separators fails with `errInvalidPoolId`. -/
theorem C9_poolId_roundtrip :
    (∀ pid : AddressPoolId, '|' ∉ pid.AsId.data → '|' ∉ pid.Subnet.data →
        '|' ∉ pid.ChildSubnet.data →
        NewAddressPoolIdFromString (poolIdString pid) = .ok pid)
  ∧ (∀ s : String, 3 ≤ s.data.count '|' →
        NewAddressPoolIdFromString s = .error .errInvalidPoolId) := by
  constructor
  · intro pid h1 h2 h3
    obtain ⟨a, b, c⟩ := pid
    simp only at h1 h2 h3
    by_cases hc : c = ""
    · have hdata : (poolIdString ⟨a, b, c⟩).data = a.data ++ '|' :: b.data := by
        unfold poolIdString
        simp [hc, data_append]
      unfold NewAddressPoolIdFromString splitStr
      rw [hdata, splitChar_append _ _ _ h1, splitChar_no_sep _ _ h2]
      simp [stringMk_data, hc]
    · have hdata : (poolIdString ⟨a, b, c⟩).data =
          a.data ++ '|' :: (b.data ++ '|' :: c.data) := by
        unfold poolIdString
        simp [hc, data_append]
      unfold NewAddressPoolIdFromString splitStr
      rw [hdata, splitChar_append _ _ _ h1, splitChar_append _ _ _ h2,
        splitChar_no_sep _ _ h3]
      simp [stringMk_data]
  · intro s hcount
    have hlen : ((splitChar '|' s.data).map String.mk).length > 3 := by
      rw [List.length_map, length_splitChar]
      omega
    unfold NewAddressPoolIdFromString splitStr
    rw [if_pos hlen]

/-- C9 witness: the round trip at a concrete pool id and the failure at a
concrete string with three pipes. -/
theorem C9_witness :
    NewAddressPoolIdFromString (poolIdString ⟨"local", "10.0.0.0/24", "sub1"⟩) =
      .ok ⟨"local", "10.0.0.0/24", "sub1"⟩ ∧
    NewAddressPoolIdFromString "a|b|c|d" = .error .errInvalidPoolId :=
  ⟨C9_poolId_roundtrip.1 ⟨"local", "10.0.0.0/24", "sub1"⟩ (by decide) (by decide) (by decide),
   C9_poolId_roundtrip.2 "a|b|c|d" (by decide)⟩

/-- An empty local address space, used for concrete runs. -/
def ovSpace0 : AddressSpace := { Id := "local", Scope := 0, Pools := [], epoch := 0 }

/-- Overlay request options: a network name plus the overlay-network flag. -/
def ovOpts : Opts := [(OptNetworkName, "net1"), (OptOverlayNetwork, "1")]

/-- C7: requesting an overlay pool from CIDR 10.0.0.0/30 creates a pool with
exactly the records 10.0.0.0 to 10.0.0.3, of which the first, second and
last are pre-marked in use, leaving 10.0.0.2 as the only allocatable one. -/
theorem C7_overlay_pool :
    ((requestPool ovSpace0 "10.0.0.0/30" "" (some ovOpts) false).toOption.map
      fun x => x.1.2.Addresses.map fun kv => (kv.1, kv.2.Addr, kv.2.InUse)) =
    some [("10.0.0.0", 167772160, true), ("10.0.0.1", 167772161, true),
          ("10.0.0.2", 167772162, false), ("10.0.0.3", 167772163, true)] := by
  rfl

/-- C8 (amended): the space-level pool lookup fails on an unknown pool id
with `errInvalidPoolId` (not `errAddressPoolNotFound` as the spec's error
table states). -/
theorem C8_unknown_pool (as_ : AddressSpace) (poolId : String)
    (h : alookup as_.Pools poolId = none) :
    getAddressPool as_ poolId = .error .errInvalidPoolId := by
  unfold getAddressPool
  rw [h]

/-- C8 witness: a concrete unknown pool id. -/
theorem C8_witness : getAddressPool ⟨"local", 0, [], 0⟩ "missing" = .error .errInvalidPoolId :=
  C8_unknown_pool ⟨"local", 0, [], 0⟩ "missing" (by decide)

/-- C8 counterexample: the lookup of an unknown pool id does not fail with
`errAddressPoolNotFound`; it fails with `errInvalidPoolId`. -/
theorem C8_cex :
    getAddressPool ⟨"local", 0, [], 0⟩ "pool1" ≠ .error .errAddressPoolNotFound ∧
    getAddressPool ⟨"local", 0, [], 0⟩ "pool1" = .error .errInvalidPoolId := by
  decide

theorem ipToString_ne_empty (a : Nat) : ipToString a ≠ "" := by
  intro h
  have h1 := congrArg String.data h
  have hdot : (".").data = ['.'] := rfl
  simp [ipToString, data_append, hdot] at h1

/-- C4 (amended): a request for a non-empty pool id naming no existing pool
fails with `errAddressPoolNotFound`, leaving the space unchanged, provided a
non-empty network-name option is supplied and the overlay-network option is
not (with no network name, Go instead reaches its final log statement with a
nil pool and panics). -/
theorem C4_unknown_pool (as_ : AddressSpace) (poolId subPoolId : String)
    (opts : Opts) (v6 : Bool)
    (hpid : poolId ≠ "")
    (hnw : optGet (some opts) OptNetworkName ≠ "")
    (hov : optGet (some opts) OptOverlayNetwork = "")
    (h1 : alookup as_.Pools poolId = none)
    (h2 : alookup as_.Pools (poolId ++ optGet (some opts) OptNetworkName) = none) :
    requestPool as_ poolId subPoolId (some opts) v6 = .error .errAddressPoolNotFound := by
  have hg : getPool as_ poolId (some opts) = .error .errAddressPoolNotFound := by
    simp only [getPool, h1]
    rw [if_neg hnw, h2]
    simp [hov]
  unfold requestPool
  rw [if_pos hpid, hg]

/-- C4 witness: a concrete unknown pool id with a network-name option. -/
theorem C4_witness :
    requestPool ⟨"local", 0, [], 0⟩ "pool9" "" (some [(OptNetworkName, "n")]) false =
      .error .errAddressPoolNotFound :=
  C4_unknown_pool ⟨"local", 0, [], 0⟩ "pool9" "" [(OptNetworkName, "n")] false
    (by decide) (by decide) (by decide) (by decide) (by decide)

/-- C4 counterexample: with no network-name option the overlay synthesis
does not apply either, yet the call does not fail with
`errAddressPoolNotFound`: Go dereferences the nil pool in the final log
statement of `requestPool` and panics. -/
theorem C4_cex :
    requestPool ⟨"local", 0, [], 0⟩ "ghost" "" none false = .error .panicNilPool ∧
    IpamErr.panicNilPool ≠ IpamErr.errAddressPoolNotFound := by
  decide

/-- C6 (amended): requesting the gateway returns `gateway/mask` and registers
nothing, and releasing the gateway address is a no-op success, provided the
gateway address is not itself registered as a record of the pool. -/
theorem C6_gateway (ap : AddressPool) (opts : Opts)
    (hgw : optGet (some opts) OptAddressType = OptAddressTypeGateway)
    (hnr : alookup ap.Addresses (ipToString ap.Gateway) = none) :
    requestAddress ap "" (some opts) = .ok (cidrString ap.Gateway ap.Subnet, ap)
  ∧ ∀ (e : Int) (opts2 : Option Opts),
      releaseAddress e ap (ipToString ap.Gateway) opts2 = .ok ap := by
  constructor
  · simp [requestAddress, hgw]
  · intro e opts2
    simp [releaseAddress, hnr, ipToString_ne_empty]

/-- A pool whose gateway 10.0.0.1 is itself registered as a free record. -/
def gwPool : AddressPool :=
  { Id := "10.0.0.0/24", IfName := "eth0", Subnet := ⟨167772160, 24⟩, Gateway := 167772161
    Addresses := [("10.0.0.1",
      { ID := "", Addr := 167772161, InUse := false, unhealthy := false, epoch := 0 })]
    addrsByID := [], IsIPv6 := false, Priority := 0, RefCount := 1, epoch := 0 }

/-- A pool with no records; its gateway is 10.0.0.1. -/
def gwPool2 : AddressPool :=
  { Id := "10.0.0.0/24", IfName := "eth0", Subnet := ⟨167772160, 24⟩, Gateway := 167772161
    Addresses := [], addrsByID := [], IsIPv6 := false, Priority := 0, RefCount := 1, epoch := 0 }

/-- C6 witness: the gateway round trip on a concrete pool whose gateway is
not registered. -/
theorem C6_witness :
    requestAddress gwPool2 "" (some [(OptAddressType, OptAddressTypeGateway)]) =
      .ok (cidrString gwPool2.Gateway gwPool2.Subnet, gwPool2) ∧
    releaseAddress 0 gwPool2 (ipToString gwPool2.Gateway) none = .ok gwPool2 :=
  have h := C6_gateway gwPool2 [(OptAddressType, OptAddressTypeGateway)] (by decide) (by decide)
  ⟨h.1, h.2 0 none⟩

/-- C6 counterexample: on a pool whose gateway address is registered as a
free record, requesting the gateway still succeeds, but releasing the
gateway address is not a no-op success: it fails with `errAddressNotInUse`. -/
theorem C6_cex :
    requestAddress gwPool "" (some [(OptAddressType, OptAddressTypeGateway)]) =
      .ok (cidrString gwPool.Gateway gwPool.Subnet, gwPool) ∧
    releaseAddress 0 gwPool (ipToString gwPool.Gateway) none = .error .errAddressNotInUse := by
  decide

theorem newAddressPool_ok_epoch {as_ : AddressSpace} {ifName nwName : String} {pri : Int}
    {subnet : IPv4Net} {ap : AddressPool} {as2 : AddressSpace}
    (h : newAddressPool as_ ifName nwName pri subnet = .ok (ap, as2)) :
    as2.epoch = as_.epoch := by
  simp only [newAddressPool] at h
  split at h
  · simp at h
  · injection h with h2
    have h3 := congrArg Prod.snd h2
    simp at h3
    rw [← h3]

theorem getPool_epoch {as_ : AddressSpace} {pid : String} {opts : Option Opts}
    {res : Option (String × AddressPool) × AddressSpace}
    (h : getPool as_ pid opts = .ok res) : res.2.epoch = as_.epoch := by
  simp only [getPool] at h
  split at h
  · injection h with h2
    rw [← h2]
  · split at h
    · injection h with h2
      rw [← h2]
    · split at h
      · injection h with h2
        rw [← h2]
      · split at h
        · injection h with h2
          rw [← h2]
        · split at h
          · split at h
            · simp at h
            · split at h
              · injection h with h2
                rw [← h2]
              · rename_i ap2 as2 heqn
                injection h with h2
                rw [← h2]
                simp
                exact newAddressPool_ok_epoch heqn
          · simp at h

theorem requestPool_epoch {as_ : AddressSpace} {pid sub : String} {opts : Option Opts}
    {v6 : Bool} {r : String × AddressPool} {s2 : AddressSpace}
    (h : requestPool as_ pid sub opts v6 = .ok (r, s2)) : s2.epoch = as_.epoch := by
  simp only [requestPool] at h
  split at h
  · split at h
    · simp at h
    · simp at h
    · rename_i k ap as2 heq
      injection h with h2
      have h3 := congrArg Prod.snd h2
      simp at h3
      rw [← h3]
      exact getPool_epoch heq
  · split at h
    · simp at h
    · injection h with h2
      have h3 := congrArg Prod.snd h2
      simp at h3
      rw [← h3]

theorem releasePool_epoch {as_ : AddressSpace} {pid : String} {s2 : AddressSpace}
    (h : releasePool as_ pid = .ok s2) : s2.epoch = as_.epoch := by
  simp only [releasePool] at h
  split at h
  · simp at h
  · split at h
    · simp at h
    · split at h
      · injection h with h2
        rw [← h2]
      · injection h with h2
        rw [← h2]

/-- The epoch after a merge: bumped by one exactly when the merge adopted
or reconfirmed something. -/
theorem merge_epoch_eq (as_ newas : AddressSpace) :
    (merge as_ newas).epoch =
      if mergeTouches as_ newas then as_.epoch + 1 else as_.epoch := by
  have hst : (newas.Pools.foldl (mergeStep (as_.epoch + 1)) (as_.Pools, false)).2 =
      mergeTouches as_ newas := by
    rw [foldl_mergeStep_used (as_.epoch + 1) as_.Pools newas.Pools as_.Pools false
      (fun q hq => hq) (fun q hn hs => by rw [hn] at hs; simp at hs)]
    simp [mergeTouches]
  simp only [merge, hst]

/-- The pool map after a merge: the adoption-phase result swept at the new
epoch. -/
theorem merge_pools_eq (as_ newas : AddressSpace) :
    (merge as_ newas).Pools =
      (newas.Pools.foldl (mergeStep (as_.epoch + 1)) (as_.Pools, false)).1.filterMap
        (fun kv => (sweepPool (merge as_ newas).epoch kv.2).map fun p => (kv.1, p)) := by
  simp only [merge]

/-- C2: a merge leaves the space epoch unchanged or raises it by exactly
one; it raises it strictly iff some pool or record was adopted or
reconfirmed (`mergeTouches`); and the other space-level operations
(request/release pool) never change the epoch, so the epoch is monotonically
non-decreasing across all operations. -/
theorem C2_merge_epoch (as_ newas : AddressSpace) :
    ((merge as_ newas).epoch =
      if mergeTouches as_ newas then as_.epoch + 1 else as_.epoch)
  ∧ as_.epoch ≤ (merge as_ newas).epoch
  ∧ (merge as_ newas).epoch ≤ as_.epoch + 1
  ∧ (as_.epoch < (merge as_ newas).epoch ↔ mergeTouches as_ newas = true)
  ∧ (∀ (poolId subPoolId : String) (opts : Option Opts) (v6 : Bool)
        (r : String × AddressPool) (s2 : AddressSpace),
        requestPool as_ poolId subPoolId opts v6 = .ok (r, s2) → s2.epoch = as_.epoch)
  ∧ (∀ (poolId : String) (s2 : AddressSpace),
        releasePool as_ poolId = .ok s2 → s2.epoch = as_.epoch) := by
  have hm := merge_epoch_eq as_ newas
  refine ⟨hm, ?_, ?_, ?_, fun _ _ _ _ _ _ h => requestPool_epoch h,
    fun _ _ h => releasePool_epoch h⟩
  · rw [hm]
    by_cases ht : mergeTouches as_ newas <;> simp [ht]
  · rw [hm]
    by_cases ht : mergeTouches as_ newas <;> simp [ht]
  · rw [hm]
    by_cases ht : mergeTouches as_ newas <;> simp [ht]

/-- Extract the success value of a concrete `Except` run (default on error). -/
def exceptOkD {e a : Type} (d : a) : Except e a → a
  | .ok v => v
  | .error _ => d

/-- A referenced pool used by the C2 witness. -/
def c2pool : AddressPool :=
  { Id := "10.0.0.0/24", IfName := "eth0", Subnet := ⟨167772160, 24⟩, Gateway := 167772161
    Addresses := [], addrsByID := [], IsIPv6 := false, Priority := 0, RefCount := 1, epoch := 0 }

/-- A space holding `c2pool`, used by the C2 witness. -/
def c2space : AddressSpace := ⟨"local", 0, [("p", c2pool)], 0⟩

/-- The result of releasing pool `p` of `c2space`. -/
def c2rel : AddressSpace := exceptOkD c2space (releasePool c2space "p")

/-- C2 witness: a no-op merge keeps the epoch, and a concrete successful
pool release keeps the epoch. -/
theorem C2_witness :
    (merge c2space ⟨"local", 0, [], 0⟩).epoch = 0 ∧ c2rel.epoch = 0 :=
  ⟨by rw [(C2_merge_epoch c2space ⟨"local", 0, [], 0⟩).1]; decide,
   (C2_merge_epoch c2space ⟨"local", 0, [], 0⟩).2.2.2.2.2 "p" c2rel (by decide)⟩

/-- C5 (amended): requesting a free registered address twice with the same
non-empty id succeeds both times with the same CIDR string, maps the id to
that record, and -- provided no other record of the pool was in use --
leaves exactly the record of that address in use. -/
theorem C5_idempotent_request (ap : AddressPool) (a x : String) (r : AddressRecord)
    (hn : keysNodup ap.Addresses)
    (ha : alookup ap.Addresses a = some r)
    (hfree : ∀ kv ∈ ap.Addresses, kv.2.InUse = false)
    (hx : x ≠ "") (hane : a ≠ "") :
    ∃ ap1 ap2,
      requestAddress ap a (some [(OptAddressID, x)]) =
        .ok (cidrString r.Addr ap.Subnet, ap1) ∧
      requestAddress ap1 a (some [(OptAddressID, x)]) =
        .ok (cidrString r.Addr ap.Subnet, ap2) ∧
      alookup ap2.addrsByID x = some a ∧
      alookup ap2.Addresses a = some { r with ID := x, InUse := true } ∧
      (∀ kv ∈ ap2.Addresses, kv.2.InUse = true ↔ kv.1 = a) := by
  have hid : optGet (some [(OptAddressID, x)]) OptAddressID = x := by
    simp [optGet, alookup]
  have hrfree : r.InUse = false := hfree (a, r) (alookup_mem ha)
  set r1 : AddressRecord := { r with ID := x, InUse := true } with hr1
  set ap1 : AddressPool :=
    { ap with Addresses := ainsert a r1 ap.Addresses,
              addrsByID := ainsert x a ap.addrsByID } with hap1
  set ap2 : AddressPool :=
    { ap1 with Addresses := ainsert a r1 ap1.Addresses,
               addrsByID := ainsert x a ap1.addrsByID } with hap2
  have e1 : requestAddress ap a (some [(OptAddressID, x)]) =
      .ok (cidrString r.Addr ap.Subnet, ap1) := by
    simp only [requestAddress, hid]
    rw [if_pos hane]
    simp only [ha]
    simp [hrfree, finishRequest, hx, hap1, hr1]
  have hlook : alookup ap1.Addresses a = some r1 := by
    rw [hap1]
    exact alookup_ainsert_self a r1 ap.Addresses
  have e2 : requestAddress ap1 a (some [(OptAddressID, x)]) =
      .ok (cidrString r.Addr ap.Subnet, ap2) := by
    simp only [requestAddress, hid]
    rw [if_pos hane]
    simp only [hlook]
    simp [hr1, hx, finishRequest, hap2, hap1]
  refine ⟨ap1, ap2, e1, e2, ?_, ?_, ?_⟩
  · rw [hap2]
    exact alookup_ainsert_self x a _
  · rw [hap2]
    have h0 := alookup_ainsert_self a r1 ap1.Addresses
    simpa [hr1] using h0
  · intro kv hm
    rw [hap2] at hm
    have hn1 : keysNodup ap1.Addresses := by
      rw [hap1]
      exact keysNodup_ainsert hn
    rcases mem_ainsert_nodup hn1 hm with h1 | ⟨h1, hk1⟩
    · subst h1
      simp [hr1]
    · rw [hap1] at h1
      rcases mem_ainsert_nodup hn h1 with h2 | ⟨h2, hk2⟩
      · exfalso
        rw [h2] at hk1
        simp at hk1
      · have hfr := hfree kv h2
        simp [hfr, hk1]

/-- First C5-witness request on `gwPool`. -/
def c5req1 : Except IpamErr (String × AddressPool) :=
  requestAddress gwPool "10.0.0.1" (some [(OptAddressID, "c9")])
def c5w1 : AddressPool := (exceptOkD ("", gwPool) c5req1).2
def c5req2 : Except IpamErr (String × AddressPool) :=
  requestAddress c5w1 "10.0.0.1" (some [(OptAddressID, "c9")])
def c5w2 : AddressPool := (exceptOkD ("", gwPool) c5req2).2

/-- C5 witness: the double request at a concrete pool and id. -/
theorem C5_witness :
    alookup c5w2.addrsByID "c9" = some "10.0.0.1" ∧
    alookup c5w2.Addresses "10.0.0.1" = some ⟨"c9", 167772161, true, false, 0⟩ := by
  obtain ⟨ap1, ap2, h1, h2, h3, h4, h5⟩ :=
    C5_idempotent_request gwPool "10.0.0.1" "c9" ⟨"", 167772161, false, false, 0⟩
      (by decide) (by decide) (by decide) (by decide) (by decide)
  have e1 : c5w1 = ap1 := by
    unfold c5w1 c5req1
    rw [h1]
    rfl
  have e2 : c5w2 = ap2 := by
    unfold c5w2 c5req2
    rw [e1, h2]
    rfl
  rw [e2]
  exact ⟨h3, h4⟩

/-- A pool with a free record .2 and a record .3 already held by `z1`. -/
def c5pool : AddressPool :=
  { Id := "10.0.0.0/24", IfName := "eth0", Subnet := ⟨167772160, 24⟩, Gateway := 167772161
    Addresses := [("10.0.0.2",
      { ID := "", Addr := 167772162, InUse := false, unhealthy := false, epoch := 0 }),
      ("10.0.0.3",
      { ID := "z1", Addr := 167772163, InUse := true, unhealthy := false, epoch := 0 })]
    addrsByID := [("z1", "10.0.0.3")], IsIPv6 := false, Priority := 0, RefCount := 1, epoch := 0 }

def c5copts : Option Opts := some [(OptAddressID, "c1")]
def c5c1 : AddressPool := (exceptOkD ("", c5pool) (requestAddress c5pool "10.0.0.2" c5copts)).2
def c5c2 : AddressPool := (exceptOkD ("", c5pool) (requestAddress c5c1 "10.0.0.2" c5copts)).2

/-- C5 counterexample: when another record is already in use, the double
request still succeeds idempotently, but afterwards two records are in use,
not exactly one. -/
theorem C5_cex :
    requestAddress c5pool "10.0.0.2" c5copts = .ok ("10.0.0.2/24", c5c1) ∧
    requestAddress c5c1 "10.0.0.2" c5copts = .ok ("10.0.0.2/24", c5c2) ∧
    (c5c2.Addresses.filter fun kv => kv.2.InUse).map Prod.fst = ["10.0.0.2", "10.0.0.3"] := by
  decide

/-- The candidate pools of a request for "any" pool: pools not in use, of
the requested address family, and on the requested interface when one is
given. -/
def candidatePools (v6 : Bool) (ifName : String) (pools : List (String × AddressPool)) :
    List (String × AddressPool) :=
  pools.filter fun kv =>
    !poolInUse kv.2 && (kv.2.IsIPv6 == v6) && (ifName == "" || ifName == kv.2.IfName)

/-- The replacement rule the scan applies between the current best and one
further candidate: the candidate wins on strictly higher priority, and then
independently on strictly more addresses than the (possibly updated) best. -/
def selectStep (ap kv : String × AddressPool) : String × AddressPool :=
  let a1 := if kv.2.Priority > ap.2.Priority then kv else ap
  if kv.2.Addresses.length > a1.2.Addresses.length then kv else a1

/-- The selection among candidates: fold the replacement rule over the
candidates in iteration order. -/
def selectPool : List (String × AddressPool) → Option (String × AddressPool)
  | [] => none
  | c :: cs => some (cs.foldl selectStep c)

theorem ite_some {α : Type} (C : Prop) [Decidable C] (a b : α) :
    (if C then some a else some b) = some (if C then a else b) := by
  by_cases h : C <;> simp [h]

theorem scanPools_eq_selectPool (v6 : Bool) (ifName : String) :
    ∀ (pools : List (String × AddressPool)) (acc : Option (String × AddressPool)),
      pools.foldl (scanStep v6 ifName) acc =
        match acc with
        | none => selectPool (candidatePools v6 ifName pools)
        | some c => some ((candidatePools v6 ifName pools).foldl selectStep c) := by
  intro pools
  induction pools with
  | nil =>
    intro acc
    cases acc <;> rfl
  | cons kv rest ih =>
    intro acc
    simp only [List.foldl_cons, candidatePools, List.filter_cons]
    by_cases h1 : poolInUse kv.2
    · have hstep : scanStep v6 ifName acc kv = acc := by
        unfold scanStep
        rw [if_pos h1]
      have hpred : (!poolInUse kv.2 && (kv.2.IsIPv6 == v6) &&
          (ifName == "" || ifName == kv.2.IfName)) = false := by
        simp [h1]
      rw [hstep, hpred, ih acc]
      simp [candidatePools]
    · by_cases h2 : kv.2.IsIPv6 = v6
      · by_cases h3 : ifName = "" ∨ ifName = kv.2.IfName
        · have hpred : (!poolInUse kv.2 && (kv.2.IsIPv6 == v6) &&
              (ifName == "" || ifName == kv.2.IfName)) = true := by
            rcases h3 with h3 | h3 <;> simp [h1, h2, h3]
          rw [hpred]
          have hv6 : ¬ kv.2.IsIPv6 ≠ v6 := by simp [h2]
          have hif : ¬(ifName ≠ "" ∧ ifName ≠ kv.2.IfName) := by
            rcases h3 with h3 | h3 <;> simp [h3]
          cases acc with
          | none =>
            have hstep : scanStep v6 ifName none kv = some kv := by
              unfold scanStep
              rw [if_neg h1, if_neg hv6, if_neg hif]
            rw [hstep, ih (some kv)]
            simp [candidatePools, selectPool]
          | some c =>
            have hstep : scanStep v6 ifName (some c) kv = some (selectStep c kv) := by
              unfold scanStep selectStep
              rw [if_neg h1, if_neg hv6, if_neg hif]
              simp only [ite_some]
            rw [hstep, ih (some (selectStep c kv))]
            simp [candidatePools]
        · have hstep : scanStep v6 ifName acc kv = acc := by
            unfold scanStep
            rw [if_neg h1]
            have h3' : ifName ≠ "" ∧ ifName ≠ kv.2.IfName := by
              constructor
              · intro he; exact h3 (Or.inl he)
              · intro he; exact h3 (Or.inr he)
            simp [h2, h3']
          have hpred : (!poolInUse kv.2 && (kv.2.IsIPv6 == v6) &&
              (ifName == "" || ifName == kv.2.IfName)) = false := by
            have h3a : ¬ ifName = "" := fun he => h3 (Or.inl he)
            have h3b : ¬ ifName = kv.2.IfName := fun he => h3 (Or.inr he)
            simp [h3a, h3b]
          rw [hstep, hpred, ih acc]
          simp [candidatePools]
      · have hstep : scanStep v6 ifName acc kv = acc := by
          unfold scanStep
          rw [if_neg h1]
          simp [h2]
        have hpred : (!poolInUse kv.2 && (kv.2.IsIPv6 == v6) &&
            (ifName == "" || ifName == kv.2.IfName)) = false := by
          simp [h2]
        rw [hstep, hpred, ih acc]
        simp [candidatePools]

/-- C3 (amended): with an empty pool id, the candidates are exactly the
pools with ref_count zero, the requested address family and the requested
interface; among them the scan replaces the current best on strictly higher
priority and then, independently, on strictly more addresses than the
current best -- so a lower-priority candidate with strictly more addresses
overrides a higher-priority one. -/
theorem C3_pool_selection (as_ : AddressSpace) (options : Option Opts) (v6 : Bool) :
    requestPool as_ "" "" options v6 =
      match selectPool (candidatePools v6 (optGet options OptInterfaceName) as_.Pools) with
      | none => .error .panicNilPool
      | some (k, ap) =>
        .ok ((k, { ap with RefCount := ap.RefCount + 1 }),
             { as_ with Pools := ainsert k { ap with RefCount := ap.RefCount + 1 } as_.Pools }) := by
  unfold requestPool
  rw [if_neg (by simp)]
  unfold scanPools
  rw [scanPools_eq_selectPool v6 (optGet options OptInterfaceName) as_.Pools none]

/-- A free record used to build the C3 counterexample pools. -/
def c3recA : AddressRecord := { ID := "", Addr := 3232235778, InUse := false, unhealthy := false, epoch := 0 }

/-- Candidate A: priority 1, one address. -/
def c3poolA : AddressPool :=
  { Id := "A", IfName := "eth0", Subnet := ⟨3232235776, 24⟩, Gateway := 3232235777
    Addresses := [("192.168.1.2", c3recA)]
    addrsByID := [], IsIPv6 := false, Priority := 1, RefCount := 0, epoch := 0 }

/-- Candidate B: priority 0, two addresses. -/
def c3poolB : AddressPool :=
  { Id := "B", IfName := "eth0", Subnet := ⟨3232236032, 24⟩, Gateway := 3232236033
    Addresses := [("192.168.2.2", { c3recA with Addr := 3232236034 }),
                  ("192.168.2.3", { c3recA with Addr := 3232236035 })]
    addrsByID := [], IsIPv6 := false, Priority := 0, RefCount := 0, epoch := 0 }

/-- A space holding both C3 candidate pools. -/
def c3space : AddressSpace := ⟨"local", 0, [("A", c3poolA), ("B", c3poolB)], 0⟩

/-- C3 counterexample: candidate A has strictly higher priority than B,
both are candidates, yet the request selects B (B has more addresses), so a
higher-priority candidate does not always beat a lower-priority one. -/
theorem C3_cex :
    ((requestPool c3space "" "" none false).toOption.map fun x => x.1.1) = some "B" ∧
    c3poolA.Priority > c3poolB.Priority ∧
    candidatePools false "" c3space.Pools = [("A", c3poolA), ("B", c3poolB)] := by
  decide

/-- Requesting a specific free address with no options marks it in use. -/
theorem requestAddress_free (ap : AddressPool) (ak : String) (r : AddressRecord)
    (hane : ak ≠ "") (ha : alookup ap.Addresses ak = some r) (hfree : r.InUse = false) :
    requestAddress ap ak none =
      .ok (cidrString r.Addr ap.Subnet,
        { ap with Addresses := ainsert ak { r with ID := "", InUse := true } ap.Addresses }) := by
  simp only [requestAddress]
  rw [if_pos hane]
  simp only [ha]
  simp [hfree, finishRequest, optGet]

/-- Releasing an in-use address whose record epoch is older than the space
epoch removes the record from the pool. -/
theorem releaseAddress_deletes (e : Int) (ap : AddressPool) (ak : String) (r : AddressRecord)
    (hane : ak ≠ "") (ha : alookup ap.Addresses ak = some r) (hin : r.InUse = true)
    (hep : r.epoch < e) :
    ∃ ap3, releaseAddress e ap ak none = .ok ap3 ∧ alookup ap3.Addresses ak = none := by
  refine ⟨{ ap with
      Addresses := aerase ak (ainsert ak { r with ID := "", InUse := false } ap.Addresses),
      addrsByID := if r.ID ≠ "" then aerase r.ID ap.addrsByID else ap.addrsByID }, ?_, ?_⟩
  · simp only [releaseAddress]
    rw [if_pos hane]
    simp only [ha]
    simp [finishRelease, hin, hep, optGet]
  · exact alookup_aerase_self ak _

/-- Sweeping a stale pool holding a stale in-use record keeps the pool,
bumps its epoch, and marks the record unhealthy. -/
theorem sweepPool_inuse_lookup (e : Int) (ap : AddressPool) (ak : String) (A : AddressRecord)
    (hep : ap.epoch < e) (hA : alookup ap.Addresses ak = some A)
    (hin : A.InUse = true) (hAep : A.epoch ≠ e) :
    ∃ ap2, sweepPool e ap = some ap2 ∧ ap2.epoch = e ∧
      alookup ap2.Addresses ak = some { A with unhealthy := true } := by
  have hsnd := sweepRec_snd_of_mem e (ak, A) ap.Addresses [] ap.epoch
    (alookup_mem hA) (Or.inr hin)
  have hfst := sweepRec_fst e ap.Addresses [] ap.epoch
  have hg : ∀ (kv : String × AddressRecord) (w : String × AddressRecord),
      sweepG e kv = some w → w.1 = kv.1 := by
    intro kv w hw
    unfold sweepG at hw
    by_cases h1 : kv.2.epoch = e
    · simp [h1] at hw
      rw [← hw]
    · by_cases h2 : kv.2.InUse <;> simp [h1, h2] at hw
      rw [← hw]
  have hgA : sweepG e (ak, A) = some (ak, { A with unhealthy := true }) := by
    unfold sweepG
    simp [hAep, hin]
  have hlook : alookup (ap.Addresses.foldl (sweepRecStep e) ([], ap.epoch)).1 ak =
      some { A with unhealthy := true } := by
    rw [hfst, List.nil_append]
    exact alookup_filterMap hg hA hgA
  set addrs1 : List (String × AddressRecord) :=
    (ap.Addresses.foldl (sweepRecStep e) ([], ap.epoch)).1 with haddrs
  refine ⟨{ ap with Addresses := addrs1, epoch := e }, ?_, rfl, hlook⟩
  have hcond : ¬(({ ap with Addresses := addrs1, epoch := e } : AddressPool).epoch < e ∧
      poolInUse { ap with Addresses := addrs1, epoch := e } = false) := by
    intro hcon
    simp at hcon
  simp only [sweepPool]
  rw [if_pos hep, hsnd, if_neg hcond]

/-- The per-pool sweep of the merge preserves pool keys. -/
theorem sweep_map_key (e : Int) :
    ∀ (kv : String × AddressPool) (w : String × AddressPool),
      ((sweepPool e kv.2).map fun p => (kv.1, p)) = some w → w.1 = kv.1 := by
  intro kv w hw
  cases hsp : sweepPool e kv.2 with
  | none => rw [hsp] at hw; simp at hw
  | some p =>
    rw [hsp] at hw
    simp at hw
    rw [← hw]

/-- C10: a merge that adopts a pool new to the live space gives the pool
the new space epoch while every record inside keeps its snapshot-time
epoch, which stays strictly below the new epoch; consequently requesting
and then releasing any such address deletes its record from the pool. -/
theorem C10_adopted_pool (L N : AddressSpace) (pk : String) (P : AddressPool)
    (hNodup : keysNodup N.Pools)
    (habs : alookup L.Pools pk = none)
    (hpv : alookup N.Pools pk = some P) :
    (merge L N).epoch = L.epoch + 1 ∧
    alookup (merge L N).Pools pk = some { P with epoch := L.epoch + 1 } ∧
    (∀ (ak : String) (r : AddressRecord), alookup P.Addresses ak = some r →
      (r.epoch ≤ L.epoch → r.epoch < (merge L N).epoch) ∧
      (r.InUse = false → r.epoch ≤ L.epoch → ak ≠ "" →
        ∃ c ap2 ap3,
          requestAddress { P with epoch := L.epoch + 1 } ak none = .ok (c, ap2) ∧
          releaseAddress (merge L N).epoch ap2 ak none = .ok ap3 ∧
          alookup ap3.Addresses ak = none)) := by
  have hTouch : mergeTouches L N = true := by
    unfold mergeTouches
    rw [List.any_eq_true]
    exact ⟨(pk, P), alookup_mem hpv, by simp [habs]⟩
  have hep : (merge L N).epoch = L.epoch + 1 := by
    rw [merge_epoch_eq, if_pos hTouch]
  have hph : alookup (N.Pools.foldl (mergeStep (L.epoch + 1)) (L.Pools, false)).1 pk =
      some { P with epoch := L.epoch + 1 } :=
    foldl_mergeStep_lookup_adopt (L.epoch + 1) N.Pools L.Pools false hNodup hpv habs
  have hsw : sweepPool (merge L N).epoch { P with epoch := L.epoch + 1 } =
      some { P with epoch := L.epoch + 1 } := by
    unfold sweepPool
    rw [hep, if_neg (by simp)]
  have hlookup : alookup (merge L N).Pools pk = some { P with epoch := L.epoch + 1 } := by
    rw [merge_pools_eq]
    exact alookup_filterMap (sweep_map_key (merge L N).epoch) hph (by rw [hsw]; rfl)
  refine ⟨hep, hlookup, ?_⟩
  intro ak r har
  constructor
  · intro hre
    rw [hep]
    omega
  · intro hfr hre hak
    have hreq := requestAddress_free { P with epoch := L.epoch + 1 } ak r hak har hfr
    obtain ⟨ap3, hrel, hnone⟩ :=
      releaseAddress_deletes (merge L N).epoch
        { ({ P with epoch := L.epoch + 1 } : AddressPool) with
          Addresses := ainsert ak { r with ID := "", InUse := true } P.Addresses }
        ak { r with ID := "", InUse := true } hak
        (alookup_ainsert_self ak _ _) rfl (by rw [hep]; show r.epoch < L.epoch + 1; omega)
    exact ⟨_, _, ap3, hreq, hrel, hnone⟩

/-- Snapshot pool adopted in the C10 witness. -/
def c10P : AddressPool :=
  { Id := "10.0.0.0/24", IfName := "eth2", Subnet := ⟨167772160, 24⟩, Gateway := 167772161
    Addresses := [("10.0.0.2",
      { ID := "", Addr := 167772162, InUse := false, unhealthy := false, epoch := 0 })]
    addrsByID := [], IsIPv6 := false, Priority := 0, RefCount := 0, epoch := 0 }

/-- A live space at epoch 5 with no pools. -/
def c10L : AddressSpace := ⟨"local", 0, [], 5⟩
/-- A snapshot space carrying `c10P`. -/
def c10N : AddressSpace := ⟨"local", 0, [("p", c10P)], 0⟩

/-- C10 witness: adopting a concrete snapshot pool into a space at epoch 5
and releasing its address. -/
theorem C10_witness :
    (merge c10L c10N).epoch = 6 ∧
    alookup (merge c10L c10N).Pools "p" = some { c10P with epoch := 6 } ∧
    (∃ c ap2 ap3,
      requestAddress { c10P with epoch := 6 } "10.0.0.2" none = .ok (c, ap2) ∧
      releaseAddress (merge c10L c10N).epoch ap2 "10.0.0.2" none = .ok ap3 ∧
      alookup ap3.Addresses "10.0.0.2" = none) := by
  have h := C10_adopted_pool c10L c10N "p" c10P (by decide) (by decide) (by decide)
  refine ⟨h.1, h.2.1, ?_⟩
  exact (h.2.2 "10.0.0.2" ⟨"", 167772162, false, false, 0⟩ (by decide)).2
    (by decide) (by decide) (by decide)

/-- C1 (amended): when a merge that adopts or reconfirms something removes
an in-use address A from the live view, A's record survives in use and
marked unhealthy, its pool survives, and the next successful release of A
deletes the record. Stated over well-formed states (map keys unique, pool
and record epochs bounded by the space epoch). -/
theorem C1_stale_inuse (L N : AddressSpace) (pk ak : String) (P : AddressPool)
    (A : AddressRecord)
    (hNodupN : keysNodup N.Pools)
    (hP : alookup L.Pools pk = some P)
    (hA : alookup P.Addresses ak = some A)
    (hInUse : A.InUse = true)
    (hGone : ∀ pv, alookup N.Pools pk = some pv → alookup pv.Addresses ak = none)
    (hTouch : mergeTouches L N = true)
    (hPep : P.epoch ≤ L.epoch)
    (hAep : A.epoch ≤ L.epoch)
    (hak : ak ≠ "") :
    ∃ P2, alookup (merge L N).Pools pk = some P2 ∧
      alookup P2.Addresses ak = some { A with unhealthy := true } ∧
      ({ A with unhealthy := true } : AddressRecord).InUse = true ∧
      ∃ P3, releaseAddress (merge L N).epoch P2 ak none = .ok P3 ∧
        alookup P3.Addresses ak = none := by
  have hep : (merge L N).epoch = L.epoch + 1 := by
    rw [merge_epoch_eq, if_pos hTouch]
  have hph : ∃ P1 : AddressPool,
      alookup (N.Pools.foldl (mergeStep (L.epoch + 1)) (L.Pools, false)).1 pk = some P1 ∧
      alookup P1.Addresses ak = some A ∧ P1.epoch = P.epoch := by
    cases hnp : alookup N.Pools pk with
    | none =>
      refine ⟨P, ?_, hA, rfl⟩
      rw [foldl_mergeStep_lookup_other (L.epoch + 1) pk N.Pools L.Pools false
        (alookup_none_forall hnp)]
      exact hP
    | some pv =>
      refine ⟨{ P with Addresses := mergeRecords (L.epoch + 1) P.Addresses pv.Addresses },
        ?_, ?_, rfl⟩
      · exact foldl_mergeStep_lookup_existing (L.epoch + 1) N.Pools L.Pools false
          hNodupN hnp hP
      · show alookup (mergeRecords (L.epoch + 1) P.Addresses pv.Addresses) ak = some A
        rw [mergeRecords_lookup_absent (L.epoch + 1) pv.Addresses P.Addresses
          (alookup_none_forall (hGone pv hnp))]
        exact hA
  obtain ⟨P1, hph1, hph2, hph3⟩ := hph
  have hP1ep : P1.epoch < (merge L N).epoch := by
    rw [hep, hph3]
    omega
  have hAne : A.epoch ≠ (merge L N).epoch := by
    rw [hep]
    omega
  obtain ⟨P2, hsw, hP2ep, hP2look⟩ :=
    sweepPool_inuse_lookup (merge L N).epoch P1 ak A hP1ep hph2 hInUse hAne
  have hlookup : alookup (merge L N).Pools pk = some P2 := by
    rw [merge_pools_eq]
    exact alookup_filterMap (sweep_map_key (merge L N).epoch) hph1 (by rw [hsw]; rfl)
  obtain ⟨P3, hrel, hnone⟩ :=
    releaseAddress_deletes (merge L N).epoch P2 ak { A with unhealthy := true } hak
      hP2look hInUse (by rw [hep]; show A.epoch < L.epoch + 1; omega)
  exact ⟨P2, hlookup, hP2look, hInUse, P3, hrel, hnone⟩

/-- The in-use record of the C1 scenario. -/
def c1A : AddressRecord :=
  { ID := "cl1", Addr := 167772162, InUse := true, unhealthy := false, epoch := 0 }

/-- The live pool holding `c1A`. -/
def c1P : AddressPool :=
  { Id := "10.0.0.0/24", IfName := "eth0", Subnet := ⟨167772160, 24⟩, Gateway := 167772161
    Addresses := [("10.0.0.2", c1A)]
    addrsByID := [("cl1", "10.0.0.2")], IsIPv6 := false, Priority := 0, RefCount := 1, epoch := 0 }

/-- The live space of the C1 scenario. -/
def c1L : AddressSpace := ⟨"local", 0, [("p", c1P)], 0⟩

/-- A snapshot that drops pool `p` but adopts a new pool `q` (so the merge
advances the epoch). -/
def c1Nfresh : AddressSpace :=
  ⟨"local", 0,
   [("q", { Id := "10.0.1.0/24", IfName := "eth1", Subnet := ⟨167772416, 24⟩
            Gateway := 167772417
            Addresses := [("10.0.1.2",
              { ID := "", Addr := 167772418, InUse := false, unhealthy := false, epoch := 0 })]
            addrsByID := [], IsIPv6 := false, Priority := 0, RefCount := 0, epoch := 0 })],
   0⟩

/-- C1 witness: the concrete scenario where the snapshot drops the pool of
the in-use address but still reconfirms something. -/
theorem C1_witness :
    ∃ P2, alookup (merge c1L c1Nfresh).Pools "p" = some P2 ∧
      alookup P2.Addresses "10.0.0.2" = some { c1A with unhealthy := true } ∧
      ({ c1A with unhealthy := true } : AddressRecord).InUse = true ∧
      ∃ P3, releaseAddress (merge c1L c1Nfresh).epoch P2 "10.0.0.2" none = .ok P3 ∧
        alookup P3.Addresses "10.0.0.2" = none :=
  C1_stale_inuse c1L c1Nfresh "p" "10.0.0.2" c1P c1A (by decide) (by decide) (by decide)
    (by decide)
    (fun pv hpv => by
      rw [(by decide : alookup c1Nfresh.Pools "p" = (none : Option AddressPool))] at hpv
      exact Option.noConfusion hpv)
    (by decide) (by decide) (by decide) (by decide)

/-- A snapshot sharing pool `p` but carrying no records at all: the merge
adopts and reconfirms nothing. -/
def c1Nempty : AddressSpace :=
  ⟨"local", 0,
   [("p", { Id := "10.0.0.0/24", IfName := "eth0", Subnet := ⟨167772160, 24⟩
            Gateway := 167772161, Addresses := [], addrsByID := []
            IsIPv6 := false, Priority := 0, RefCount := 0, epoch := 0 })],
   0⟩

/-- C1 counterexample: when the incoming snapshot adopts and reconfirms
nothing (here: the shared pool arrives empty), the in-use address the
snapshot no longer lists is NOT marked unhealthy after the merge, contrary
to the claim as stated. -/
theorem C1_cex :
    ((alookup (merge c1L c1Nempty).Pools "p").bind
      fun p => alookup p.Addresses "10.0.0.2").map (fun r => (r.InUse, r.unhealthy)) =
    some (true, false) := by
  decide
